import Mathlib

/-!
Shallow embedding of the download/task coordination subsystem of the
nvm-windows GUI frontend (src/src/context/AppContext.tsx and
src/src/components/Package/GlobalPackages.tsx), together with proofs
about the Task Registry, the progress-event reconciliation handler and
the pause/resume/cancel/start control commands.
-/

namespace NvmGui

/-- One entry of `activeDownloads`: the record stored per task id.
The declared TypeScript type is
`Record<string, { progress: number, status: string, isPaused: boolean }>`,
but at runtime `pauseDownload`/`resumeDownload` can create an entry via
spread of an absent record, leaving `progress` and `status` undefined;
they are therefore modelled as `Option`.  Every code path that writes an
entry assigns `isPaused` a definite boolean, so it is modelled as `Bool`. -/
structure Task where
  progress : Option Int
  status : Option String
  isPaused : Bool
deriving Repr, DecidableEq

/-- Inbound event of the `onInstallProgress` bridge, shape
`{ version: string, progress: number, status: string, finished?: boolean,
error?: string, isPaused?: boolean }` (src/unnamed/part_000 line 11). -/
structure ProgressEvent where
  version : String
  progress : Int
  status : String
  finished : Option Bool
  error : Option String
  isPaused : Option Bool
deriving Repr, DecidableEq

/-- JavaScript truthiness of an optional boolean (`finished`): truthy
exactly when present and `true`. -/
def truthyFlag : Option Bool → Bool
  | some b => b
  | none => false

/-- JavaScript truthiness of an optional string (`error`, and the
`!state.activeVersion` test): a missing value and the empty string are
falsy, every other string is truthy. -/
def truthyStr : Option String → Bool
  | some s => s != ""
  | none => false

/-- Models JavaScript `s.includes(Char)` for the composite-id test
`version.includes(at-sign)`. -/
def hasAtSign (s : String) : Bool :=
  s.data.contains '@'

/-- The Task Registry: the `activeDownloads` JavaScript object, as an
insertion-ordered association list with at most one entry per key (a
JavaScript object cannot hold two properties with the same name; the
invariant is proved below for all reachable registries). -/
abbrev Registry := List (String × Task)

/-- Property read `obj[id]`: value at the first matching key. -/
def lookupTask : Registry → String → Option Task
  | [], _ => none
  | (k, t) :: rest, id => if k = id then some t else lookupTask rest id

/-- Property write `obj[id] = t` (inside an object spread): replaces the
value in place when the key exists, otherwise appends the new key. -/
def setTask : Registry → String → Task → Registry
  | [], id, t => [(id, t)]
  | (k, t0) :: rest, id, t =>
    if k = id then (id, t) :: rest else (k, t0) :: setTask rest id t

/-- Property deletion `delete obj[id]`: removes the key if present;
removing an absent key leaves the object unchanged. -/
def eraseTask : Registry → String → Registry
  | [], _ => []
  | (k, t0) :: rest, id =>
    if k = id then eraseTask rest id else (k, t0) :: eraseTask rest id

/-- The keys of the registry object. -/
def registryKeys (r : Registry) : List String :=
  r.map Prod.fst

/-- User-visible notifications emitted by the coordination code
(`message.success` / `message.error` calls), with the interpolated
argument recorded. -/
inductive Note where
  /-- `message.success(t(packages.messages.installSuccess, name))`:
  success toast for a global-package install, carrying the string passed
  as the `name` parameter. -/
  | successPackage (name : String)
  /-- `message.success(t(versionList.messages.installSuccess, version))`:
  success toast for a runtime-version install. -/
  | successVersion (version : String)
  /-- `message.error(msg)`: failure toast. -/
  | failure (msg : String)
deriving Repr, DecidableEq

/-- Observable effects of one run of the `onInstallProgress` listener
callback: notifications in emission order, whether the two refresh hooks
(`loadVersions`, `loadGlobalPackages`) were scheduled, and the task
records stored into the registry for the event id during processing
(the terminal branch of the source performs only a `delete` and stores
nothing; the in-progress branch stores exactly the merged record). -/
structure Effects where
  notes : List Note
  refreshVersions : Bool
  refreshPackages : Bool
  writes : List Task
deriving Repr, DecidableEq

/-- The task record written by the in-progress branch of the listener:
`{ progress, status, isPaused: data.isPaused !== undefined ? data.isPaused
: (prev.activeDownloads[version]?.isPaused || false) }`. -/
def mergedTask (reg : Registry) (e : ProgressEvent) : Task :=
  { progress := some e.progress
    status := some e.status
    isPaused :=
      match e.isPaused with
      | some b => b
      | none => (Option.map Task.isPaused (lookupTask reg e.version)).getD false }

/-- One call of the `onInstallProgress` listener callback
(src/src/context/AppContext.tsx lines 460 to 501): on a terminal event
(`finished || error` truthy) the task is deleted; a truthy `finished`
emits a success toast (package wording when the id contains the
composite separator) and schedules both refresh hooks; a truthy `error`
emits a failure toast.  Otherwise the event is merged into the registry
as an upsert. -/
def processEvent (reg : Registry) (e : ProgressEvent) : Registry × Effects :=
  if truthyFlag e.finished || truthyStr e.error then
    let reg2 := eraseTask reg e.version
    let successNotes :=
      if truthyFlag e.finished then
        if hasAtSign e.version then [Note.successPackage e.version]
        else [Note.successVersion e.version]
      else []
    let failureNotes :=
      if truthyStr e.error then [Note.failure (e.error.getD "")] else []
    (reg2,
      { notes := successNotes ++ failureNotes
        refreshVersions := truthyFlag e.finished
        refreshPackages := truthyFlag e.finished
        writes := [] })
  else
    (setTask reg e.version (mergedTask reg e),
      { notes := [], refreshVersions := false, refreshPackages := false
        writes := [mergedTask reg e] })

/-- The record built by `{ ...prev.activeDownloads[version], isPaused: b }`:
keeps the existing fields when the entry exists, otherwise produces a
record holding only `isPaused`. -/
def spreadWithPause (o : Option Task) (b : Bool) : Task :=
  match o with
  | some t => { t with isPaused := b }
  | none => { progress := none, status := none, isPaused := b }

/-- `pauseDownload(version)` (AppContext lines 413 to 426): awaits the
gateway call; on resolution optimistically upserts `isPaused: true`; on
rejection leaves the registry unchanged and surfaces the error message
via `setError` (returned as the second component). -/
def pauseDownload (reg : Registry) (id : String) :
    Except String Unit → Registry × Option String
  | Except.ok _ => (setTask reg id (spreadWithPause (lookupTask reg id) true), none)
  | Except.error msg => (reg, some msg)

/-- `resumeDownload(version)` (AppContext lines 428 to 441): same shape as
`pauseDownload` with `isPaused: false`. -/
def resumeDownload (reg : Registry) (id : String) :
    Except String Unit → Registry × Option String
  | Except.ok _ => (setTask reg id (spreadWithPause (lookupTask reg id) false), none)
  | Except.error msg => (reg, some msg)

/-- `cancelDownload(version)` (AppContext lines 443 to 454): awaits the
gateway call; on resolution deletes the entry; on rejection leaves the
registry unchanged and surfaces the error message. -/
def cancelDownload (reg : Registry) (id : String) :
    Except String Unit → Registry × Option String
  | Except.ok _ => (eraseTask reg id, none)
  | Except.error msg => (reg, some msg)

/-- `closeAction` variants of the persisted config. -/
inductive CloseAction where
  | ask
  | quit
  | hide
deriving Repr, DecidableEq

/-- The persisted configuration record (AppContext `Config`). -/
structure Config where
  nvmPath : String
  nvmSymlink : String
  lastUpdated : String
  closeAction : CloseAction
deriving Repr, DecidableEq

/-- An installed runtime version (AppContext `NodeVersion`). -/
structure NodeVersion where
  version : String
  path : String
  isActive : Bool
  installedDate : String
  size : Option Int
deriving Repr, DecidableEq

/-- A global package (AppContext `Package`). -/
structure Package where
  name : String
  version : String
  path : String
deriving Repr, DecidableEq

/-- The `currentView` variants. -/
inductive View where
  | versions
  | packages
  | settings
deriving Repr, DecidableEq

/-- The provider state (AppContext `AppState`).  `activeDownloads` is the
Task Registry. -/
structure AppState where
  config : Option Config
  versions : List NodeVersion
  activeVersion : Option String
  globalPackages : List Package
  loading : Bool
  currentView : View
  error : Option String
  activeDownloads : Registry
deriving Repr, DecidableEq

/-- The `useState` initializer of the provider. -/
def initialState : AppState :=
  { config := none, versions := [], activeVersion := none
    globalPackages := [], loading := false, currentView := View.versions
    error := none, activeDownloads := [] }

/-- `setLoading`. -/
def setLoading (s : AppState) (b : Bool) : AppState :=
  { s with loading := b }

/-- `setError`. -/
def setError (s : AppState) (e : Option String) : AppState :=
  { s with error := e }

/-- Result shape `{ success: boolean; message: string }` of the gateway
install/switch commands. -/
structure OpResult where
  success : Bool
  message : String
deriving Repr, DecidableEq

/-- `loadVersions()`: sets loading, awaits `getInstalledVersions` and
`getActiveVersion` (their joint outcome is the oracle argument; a
rejection of either is the error case, caught internally and routed to
`setError`), stores the results, and clears loading in the `finally`
block. -/
def loadVersions (s : AppState)
    (gw : Except String (List NodeVersion × Option String)) : AppState :=
  match gw with
  | Except.ok (vs, av) =>
    setLoading { setLoading s true with versions := vs, activeVersion := av } false
  | Except.error msg =>
    setLoading (setError (setLoading s true) (some msg)) false

/-- `loadGlobalPackages()`: same shape as `loadVersions` for the
global-package list. -/
def loadGlobalPackages (s : AppState)
    (gw : Except String (List Package)) : AppState :=
  match gw with
  | Except.ok ps =>
    setLoading { setLoading s true with globalPackages := ps } false
  | Except.error msg =>
    setLoading (setError (setLoading s true) (some msg)) false

/-- Oracle for the asynchronous calls performed by `switchVersion`:
the gateway switch result, the data seen by the nested `loadVersions`
and `loadGlobalPackages`, and the outcome of `refreshTray`. -/
structure SwitchOracle where
  switchRes : Except String OpResult
  loadV : Except String (List NodeVersion × Option String)
  loadP : Except String (List Package)
  tray : Except String Unit

/-- `switchVersion(version)` (AppContext lines 311 to 343): on a
successful gateway result reloads versions and packages and refreshes
the tray (a tray rejection is caught and surfaced); on `success: false`
or a gateway rejection sets the error.  Returns the new state and the
boolean result. -/
def switchVersion (s : AppState) (version : String) (o : SwitchOracle) :
    AppState × Bool :=
  let _targetVersion := version
  match o.switchRes with
  | Except.ok r =>
    if r.success then
      let s1 := loadVersions (setLoading s true) o.loadV
      let s2 := loadGlobalPackages s1 o.loadP
      match o.tray with
      | Except.ok _ => (setLoading s2 false, true)
      | Except.error msg => (setLoading (setError s2 (some msg)) false, false)
    else (setLoading (setError (setLoading s true) (some r.message)) false, false)
  | Except.error msg =>
    (setLoading (setError (setLoading s true) (some msg)) false, false)

/-- Oracle for the asynchronous calls performed by `installVersion`. -/
structure InstallOracle where
  installRes : Except String OpResult
  loadV : Except String (List NodeVersion × Option String)
  tray : Except String Unit
  switchO : SwitchOracle

/-- `installVersion(version)` (AppContext lines 345 to 368): issues the
gateway install command; on success reloads versions, refreshes the tray
and, when the captured `state.activeVersion` is falsy, auto-activates the
new version via `switchVersion`; failures are routed to `setError`.
It never touches `activeDownloads`.  Returns the new state and the
boolean result. -/
def installVersion (s : AppState) (version : String) (o : InstallOracle) :
    AppState × Bool :=
  let s1 := setLoading s true
  match o.installRes with
  | Except.ok r =>
    if r.success then
      let s2 := loadVersions s1 o.loadV
      match o.tray with
      | Except.ok _ =>
        if truthyStr s.activeVersion then (setLoading s2 false, true)
        else
          let s3 := (switchVersion s2 version o.switchO).1
          (setLoading s3 false, true)
      | Except.error msg => (setLoading (setError s2 (some msg)) false, false)
    else (setLoading (setError s1 (some r.message)) false, false)
  | Except.error msg => (setLoading (setError s1 (some msg)) false, false)

/-- `handleInstall(packageName, version?)` of GlobalPackages.tsx lines
173 to 188: builds the composite target, issues
`installGlobalPackage`, and only emits a failure toast on a
`success: false` result or a rejection.  It performs no write to the
provider state (the success toast is emitted later by the progress
listener), so the state is returned unchanged; the second component is
the final value of the component-local `installing` flag (reset in the
`finally` block) and the third the emitted notifications. -/
def handleInstall (s : AppState) (packageName : String)
    (version : Option String) (gw : Except String OpResult) :
    AppState × Option String × List Note :=
  let _installTarget :=
    match version with
    | some v => packageName ++ "@" ++ v
    | none => packageName
  match gw with
  | Except.ok r =>
    (s, none, if r.success then [] else [Note.failure r.message])
  | Except.error msg => (s, none, [Note.failure msg])

/-- Bound on event progress values: the amended registry range invariant
holds for traces whose events all satisfy this. -/
def ProgressEvent.inRange (e : ProgressEvent) : Prop :=
  0 ≤ e.progress ∧ e.progress ≤ 100

/-- One registry transition: an inbound event (restricted by `P`) or one
of the pause/resume/cancel commands with an arbitrary gateway outcome.
Start commands are absent because they do not touch the registry
(see the start-command theorem below). -/
inductive StepP (P : ProgressEvent → Prop) : Registry → Registry → Prop where
  | event {r : Registry} (e : ProgressEvent) (he : P e) :
      StepP P r (processEvent r e).1
  | pauseCmd {r : Registry} (id : String) (gw : Except String Unit) :
      StepP P r (pauseDownload r id gw).1
  | resumeCmd {r : Registry} (id : String) (gw : Except String Unit) :
      StepP P r (resumeDownload r id gw).1
  | cancelCmd {r : Registry} (id : String) (gw : Except String Unit) :
      StepP P r (cancelDownload r id gw).1

/-- Registries reachable from the initial empty `activeDownloads` by any
sequence of transitions whose events satisfy `P`. -/
inductive ReachableP (P : ProgressEvent → Prop) : Registry → Prop where
  | init : ReachableP P []
  | step {r r' : Registry} (h : ReachableP P r) (hs : StepP P r r') :
      ReachableP P r'

/-- Reachability with unrestricted events. -/
abbrev Reachable : Registry → Prop :=
  ReachableP fun _ => True

/-- Sample task record used by witnesses. -/
def sampleTask : Task :=
  { progress := some 40, status := some "downloading", isPaused := false }

/-- Sample in-progress event used by witnesses. -/
def sampleEvent : ProgressEvent :=
  { version := "20.11.0", progress := 10, status := "downloading"
    finished := none, error := none, isPaused := none }

/-- All defined progress values stored in the registry lie in [0, 100]. -/
def progressInRange (r : Registry) : Prop :=
  ∀ q ∈ r, ∀ n : Int, q.2.progress = some n → 0 ≤ n ∧ n ≤ 100

/-- Sample finished event for a runtime version. -/
def finEvent : ProgressEvent :=
  { version := "20.11.0", progress := 0, status := ""
    finished := some true, error := none, isPaused := none }

/-- Sample event carrying both a finished flag and an error. -/
def errFinEvent : ProgressEvent :=
  { version := "20.11.0", progress := 0, status := ""
    finished := some true, error := some "boom", isPaused := none }

/-- Sample error event without a finished flag. -/
def errEvent : ProgressEvent :=
  { version := "20.11.0", progress := 0, status := ""
    finished := none, error := some "boom", isPaused := none }

/-- Sample in-progress event with an out-of-range progress value. -/
def bigEvent : ProgressEvent :=
  { version := "20.11.0", progress := 150, status := "downloading"
    finished := none, error := none, isPaused := none }

/-- Sample finished event for a composite global-package id. -/
def pkgFinEvent : ProgressEvent :=
  { version := "lodash@4.17.21", progress := 100, status := "done"
    finished := some true, error := none, isPaused := none }

/-- Sample registry holding one paused task, used by witnesses. -/
def pausedReg : Registry :=
  [("20.11.0", { progress := some 10, status := some "downloading", isPaused := true })]

/-- Sample oracle for `installVersion` used by witnesses. -/
def sampleInstallOracle : InstallOracle :=
  { installRes := Except.ok { success := true, message := "ok" }
    loadV := Except.ok ([], some "20.11.0")
    tray := Except.ok ()
    switchO :=
      { switchRes := Except.error "unreachable"
        loadV := Except.error "unreachable"
        loadP := Except.error "unreachable"
        tray := Except.ok () } }

/-! ### Registry lemmas -/

theorem lookup_setTask_self (r : Registry) (id : String) (t : Task) :
    lookupTask (setTask r id t) id = some t := by
  induction r with
  | nil => simp [setTask, lookupTask]
  | cons p rest ih =>
    obtain ⟨k, t0⟩ := p
    by_cases h : k = id
    · simp [setTask, h, lookupTask]
    · simp [setTask, h, lookupTask, ih]

theorem lookup_setTask_ne (r : Registry) {id id' : String} (t : Task)
    (h : id' ≠ id) : lookupTask (setTask r id t) id' = lookupTask r id' := by
  induction r with
  | nil => simp [setTask, lookupTask, Ne.symm h]
  | cons p rest ih =>
    obtain ⟨k, t0⟩ := p
    by_cases hk : k = id
    · subst hk
      simp [setTask, lookupTask, Ne.symm h]
    · simp [setTask, hk, lookupTask, ih]

theorem lookup_eraseTask_self (r : Registry) (id : String) :
    lookupTask (eraseTask r id) id = none := by
  induction r with
  | nil => simp [eraseTask, lookupTask]
  | cons p rest ih =>
    obtain ⟨k, t0⟩ := p
    by_cases h : k = id
    · simp [eraseTask, h, ih]
    · simp [eraseTask, h, lookupTask, ih]

theorem lookup_eraseTask_ne (r : Registry) {id id' : String}
    (h : id' ≠ id) : lookupTask (eraseTask r id) id' = lookupTask r id' := by
  induction r with
  | nil => simp [eraseTask]
  | cons p rest ih =>
    obtain ⟨k, t0⟩ := p
    by_cases hk : k = id
    · subst hk
      simp [eraseTask, lookupTask, Ne.symm h, ih]
    · simp [eraseTask, hk, lookupTask, ih]

theorem eraseTask_of_lookup_none (r : Registry) (id : String)
    (h : lookupTask r id = none) : eraseTask r id = r := by
  induction r with
  | nil => simp [eraseTask]
  | cons p rest ih =>
    obtain ⟨k, t0⟩ := p
    by_cases hk : k = id
    · simp [lookupTask, hk] at h
    · simp [lookupTask, hk] at h
      simp [eraseTask, hk, ih h]

theorem mem_setTask {r : Registry} {id : String} {t : Task}
    {q : String × Task} (h : q ∈ setTask r id t) : q = (id, t) ∨ q ∈ r := by
  induction r with
  | nil => simpa [setTask] using h
  | cons p rest ih =>
    obtain ⟨k, t0⟩ := p
    by_cases hk : k = id
    · simp [setTask, hk] at h
      rcases h with h | h
      · exact Or.inl h
      · exact Or.inr (List.mem_cons_of_mem _ h)
    · simp [setTask, hk] at h
      rcases h with h | h
      · exact Or.inr (by simp [h])
      · rcases ih h with h' | h'
        · exact Or.inl h'
        · exact Or.inr (List.mem_cons_of_mem _ h')

theorem mem_eraseTask_subset {r : Registry} {id : String}
    {q : String × Task} (h : q ∈ eraseTask r id) : q ∈ r := by
  induction r with
  | nil => simp [eraseTask] at h
  | cons p rest ih =>
    obtain ⟨k, t0⟩ := p
    by_cases hk : k = id
    · simp [eraseTask, hk] at h
      exact List.mem_cons_of_mem _ (ih h)
    · simp [eraseTask, hk] at h
      rcases h with h | h
      · simp [h]
      · exact List.mem_cons_of_mem _ (ih h)

theorem mem_of_lookupTask {r : Registry} {id : String} {t : Task}
    (h : lookupTask r id = some t) : (id, t) ∈ r := by
  induction r with
  | nil => simp [lookupTask] at h
  | cons p rest ih =>
    obtain ⟨k, t0⟩ := p
    by_cases hk : k = id
    · simp [lookupTask, hk] at h
      simp [hk, h]
    · simp [lookupTask, hk] at h
      exact List.mem_cons_of_mem _ (ih h)

theorem registryKeys_setTask (r : Registry) (id : String) (t : Task) :
    registryKeys (setTask r id t) =
      if id ∈ registryKeys r then registryKeys r else registryKeys r ++ [id] := by
  induction r with
  | nil => simp [setTask, registryKeys]
  | cons p rest ih =>
    obtain ⟨k, t0⟩ := p
    by_cases hk : k = id
    · simp [setTask, hk, registryKeys]
    · simp only [setTask, if_neg hk, registryKeys, List.map_cons] at ih ⊢
      rw [ih]
      by_cases hm : id ∈ List.map Prod.fst rest
      · simp [hm]
      · simp [hm, Ne.symm hk]

theorem registryKeys_eraseTask_sublist (r : Registry) (id : String) :
    (registryKeys (eraseTask r id)).Sublist (registryKeys r) := by
  induction r with
  | nil => simp [eraseTask, registryKeys]
  | cons p rest ih =>
    obtain ⟨k, t0⟩ := p
    by_cases hk : k = id
    · simp only [eraseTask, if_pos hk, registryKeys, List.map_cons]
      exact ih.trans (List.sublist_cons_self _ _)
    · simp only [eraseTask, if_neg hk, registryKeys, List.map_cons]
      exact ih.cons₂ _

theorem registryKeys_nodup_setTask {r : Registry} (id : String) (t : Task)
    (h : (registryKeys r).Nodup) : (registryKeys (setTask r id t)).Nodup := by
  rw [registryKeys_setTask]
  by_cases hm : id ∈ registryKeys r
  · simpa [hm] using h
  · simp [hm, List.nodup_append, h]

theorem registryKeys_nodup_eraseTask {r : Registry} (id : String)
    (h : (registryKeys r).Nodup) : (registryKeys (eraseTask r id)).Nodup :=
  (registryKeys_eraseTask_sublist r id).nodup h

/-! ### Branch lemmas for the listener callback -/

theorem processEvent_terminal {e : ProgressEvent} (r : Registry)
    (h : (truthyFlag e.finished || truthyStr e.error) = true) :
    processEvent r e =
      (eraseTask r e.version,
        { notes :=
            (if truthyFlag e.finished then
              if hasAtSign e.version then [Note.successPackage e.version]
              else [Note.successVersion e.version]
            else [])
            ++ (if truthyStr e.error then [Note.failure (e.error.getD "")] else [])
          refreshVersions := truthyFlag e.finished
          refreshPackages := truthyFlag e.finished
          writes := [] }) := by
  simp [processEvent, h]

theorem processEvent_inprogress {e : ProgressEvent} (r : Registry)
    (h : (truthyFlag e.finished || truthyStr e.error) = false) :
    processEvent r e =
      (setTask r e.version (mergedTask r e),
        { notes := [], refreshVersions := false, refreshPackages := false
          writes := [mergedTask r e] }) := by
  simp [processEvent, h]

theorem processEvent_fst_terminal {e : ProgressEvent} (r : Registry)
    (h : (truthyFlag e.finished || truthyStr e.error) = true) :
    (processEvent r e).1 = eraseTask r e.version := by
  rw [processEvent_terminal r h]

theorem processEvent_fst_inprogress {e : ProgressEvent} (r : Registry)
    (h : (truthyFlag e.finished || truthyStr e.error) = false) :
    (processEvent r e).1 = setTask r e.version (mergedTask r e) := by
  rw [processEvent_inprogress r h]

/-! ### Reachability invariants -/

theorem reachable_progressInRange {r : Registry}
    (h : ReachableP ProgressEvent.inRange r) : progressInRange r := by
  induction h with
  | init =>
    intro q hq n hp
    exact absurd hq (List.not_mem_nil q)
  | @step r r' h hs ih =>
    cases hs with
    | event e he =>
      cases hterm : (truthyFlag e.finished || truthyStr e.error) with
      | true =>
        rw [processEvent_fst_terminal r hterm]
        intro q hq n hp
        exact ih q (mem_eraseTask_subset hq) n hp
      | false =>
        rw [processEvent_fst_inprogress r hterm]
        intro q hq n hp
        rcases mem_setTask hq with rfl | hq'
        · simp [mergedTask] at hp
          rw [← hp]
          exact he
        · exact ih q hq' n hp
    | pauseCmd id gw =>
      cases gw with
      | ok u =>
        intro q hq n hp
        rcases mem_setTask hq with rfl | hq'
        · cases hlk : lookupTask r id with
          | none => simp [spreadWithPause, hlk] at hp
          | some t0 =>
            simp [spreadWithPause, hlk] at hp
            exact ih (id, t0) (mem_of_lookupTask hlk) n hp
        · exact ih q hq' n hp
      | error msg => exact ih
    | resumeCmd id gw =>
      cases gw with
      | ok u =>
        intro q hq n hp
        rcases mem_setTask hq with rfl | hq'
        · cases hlk : lookupTask r id with
          | none => simp [spreadWithPause, hlk] at hp
          | some t0 =>
            simp [spreadWithPause, hlk] at hp
            exact ih (id, t0) (mem_of_lookupTask hlk) n hp
        · exact ih q hq' n hp
      | error msg => exact ih
    | cancelCmd id gw =>
      cases gw with
      | ok u =>
        intro q hq n hp
        exact ih q (mem_eraseTask_subset hq) n hp
      | error msg => exact ih

theorem reachable_keys_nodup {r : Registry} (h : Reachable r) :
    (registryKeys r).Nodup := by
  induction h with
  | init => simp [registryKeys]
  | @step r r' h hs ih =>
    cases hs with
    | event e he =>
      cases hterm : (truthyFlag e.finished || truthyStr e.error) with
      | true =>
        rw [processEvent_fst_terminal r hterm]
        exact registryKeys_nodup_eraseTask _ ih
      | false =>
        rw [processEvent_fst_inprogress r hterm]
        exact registryKeys_nodup_setTask _ _ ih
    | pauseCmd id gw =>
      cases gw with
      | ok u => exact registryKeys_nodup_setTask _ _ ih
      | error msg => exact ih
    | resumeCmd id gw =>
      cases gw with
      | ok u => exact registryKeys_nodup_setTask _ _ ih
      | error msg => exact ih
    | cancelCmd id gw =>
      cases gw with
      | ok u => exact registryKeys_nodup_eraseTask _ ih
      | error msg => exact ih

/-! ### Provider-state preservation lemmas -/

theorem activeDownloads_setLoading (s : AppState) (b : Bool) :
    (setLoading s b).activeDownloads = s.activeDownloads := rfl

theorem activeDownloads_setError (s : AppState) (e : Option String) :
    (setError s e).activeDownloads = s.activeDownloads := rfl

theorem activeDownloads_loadVersions (s : AppState)
    (gw : Except String (List NodeVersion × Option String)) :
    (loadVersions s gw).activeDownloads = s.activeDownloads := by
  cases gw with
  | ok d =>
    obtain ⟨vs, av⟩ := d
    rfl
  | error msg => rfl

theorem activeDownloads_loadGlobalPackages (s : AppState)
    (gw : Except String (List Package)) :
    (loadGlobalPackages s gw).activeDownloads = s.activeDownloads := by
  cases gw with
  | ok ps => rfl
  | error msg => rfl

theorem activeDownloads_switchVersion (s : AppState) (version : String)
    (o : SwitchOracle) :
    ((switchVersion s version o).1).activeDownloads = s.activeDownloads := by
  unfold switchVersion
  cases o.switchRes with
  | ok r =>
    by_cases hs : r.success
    · simp only [hs, if_true]
      cases o.tray with
      | ok u =>
        simp [activeDownloads_setLoading, activeDownloads_loadVersions,
          activeDownloads_loadGlobalPackages]
      | error msg =>
        simp [activeDownloads_setLoading, activeDownloads_setError,
          activeDownloads_loadVersions, activeDownloads_loadGlobalPackages]
    · simp [hs, activeDownloads_setLoading, activeDownloads_setError]
  | error msg => simp [activeDownloads_setLoading, activeDownloads_setError]

theorem activeDownloads_installVersion (s : AppState) (version : String)
    (o : InstallOracle) :
    ((installVersion s version o).1).activeDownloads = s.activeDownloads := by
  unfold installVersion
  cases o.installRes with
  | ok r =>
    by_cases hs : r.success
    · simp only [hs, if_true]
      cases o.tray with
      | ok u =>
        by_cases hav : truthyStr s.activeVersion
        · simp [hav, activeDownloads_setLoading, activeDownloads_loadVersions]
        · simp [hav, activeDownloads_setLoading, activeDownloads_loadVersions,
            activeDownloads_switchVersion]
      | error msg =>
        simp [activeDownloads_setLoading, activeDownloads_setError,
          activeDownloads_loadVersions]
    · simp [hs, activeDownloads_setLoading, activeDownloads_setError]
  | error msg => simp [activeDownloads_setLoading, activeDownloads_setError]

/-! ### Claim theorems -/

/-- C1 counterexample: after `cancelDownload` has removed the id, a stray
in-progress event for that id is NOT ignored: processing it re-creates
the Task, so the id is present in the next snapshot, contradicting
stale-event immunity. -/
theorem stale_event_resurrects_task :
    (lookupTask (cancelDownload [("20.11.0", sampleTask)] "20.11.0" (Except.ok ())).1
        "20.11.0" = none)
    ∧ lookupTask
        (processEvent
          (cancelDownload [("20.11.0", sampleTask)] "20.11.0" (Except.ok ())).1
          sampleEvent).1 "20.11.0" =
        some { progress := some 10, status := some "downloading", isPaused := false } := by
  constructor <;> rfl

/-- C1 amended: an in-progress event (no truthy `finished`, no truthy
`error`) for an id absent from the registry is not ignored: it creates a
fresh Task from the event fields, with `isPaused` defaulting to `false`;
hence after a cancel the id does not stay absent under stray events. -/
theorem stray_event_recreates_task (reg : Registry) (e : ProgressEvent)
    (habs : lookupTask reg e.version = none)
    (hf : truthyFlag e.finished = false) (he : truthyStr e.error = false) :
    lookupTask (processEvent reg e).1 e.version =
      some { progress := some e.progress, status := some e.status,
             isPaused := e.isPaused.getD false } := by
  rw [processEvent_inprogress reg (by simp [hf, he])]
  rw [lookup_setTask_self]
  simp only [mergedTask, habs]
  cases e.isPaused <;> simp

/-- C1 amended witness: a concrete stray event on the empty registry
creates the entry. -/
theorem stray_event_recreates_task_witness :
    lookupTask (processEvent [] sampleEvent).1 "20.11.0" =
      some { progress := some 10, status := some "downloading", isPaused := false } := by
  have h := stray_event_recreates_task [] sampleEvent rfl rfl rfl
  simpa [sampleEvent] using h

/-- C2: for a task present in the registry, an in-progress event lacking
`isPaused` preserves the stored pause state, and an event carrying
`isPaused` overwrites it with the carried value. -/
theorem inprogress_event_isPaused_frame (reg : Registry) (e : ProgressEvent)
    (t : Task) (hl : lookupTask reg e.version = some t)
    (hf : truthyFlag e.finished = false) (he : truthyStr e.error = false) :
    (e.isPaused = none →
      lookupTask (processEvent reg e).1 e.version =
        some { progress := some e.progress, status := some e.status,
               isPaused := t.isPaused })
    ∧ ∀ b : Bool, e.isPaused = some b →
      lookupTask (processEvent reg e).1 e.version =
        some { progress := some e.progress, status := some e.status,
               isPaused := b } := by
  rw [processEvent_inprogress reg (by simp [hf, he])]
  constructor
  · intro hip
    rw [lookup_setTask_self]
    simp [mergedTask, hip, hl]
  · intro b hip
    rw [lookup_setTask_self]
    simp [mergedTask, hip]

/-- C2 witness: a concrete progress tick without `isPaused` arriving for
a paused task leaves it paused. -/
theorem inprogress_event_isPaused_frame_witness :
    lookupTask (processEvent pausedReg sampleEvent).1 "20.11.0" =
      some { progress := some 10, status := some "downloading", isPaused := true } := by
  have h :=
    (inprogress_event_isPaused_frame pausedReg sampleEvent
      { progress := some 10, status := some "downloading", isPaused := true }
      rfl rfl rfl).1 rfl
  simpa [sampleEvent] using h

/-- C3 counterexample: processing a `finished` event on a task whose
stored progress is 40 deletes the entry and schedules both refresh
hooks, but performs no task-record write at all: progress is never
forced to 100 before removal (the write trace is empty and 40 is not
100). -/
theorem finished_event_no_progress_write :
    lookupTask [("20.11.0", sampleTask)] "20.11.0" = some sampleTask
    ∧ sampleTask.progress = some 40
    ∧ (40 : Int) ≠ 100
    ∧ processEvent [("20.11.0", sampleTask)] finEvent =
        ([], { notes := [Note.successVersion "20.11.0"],
               refreshVersions := true, refreshPackages := true, writes := [] }) := by
  refine ⟨rfl, rfl, by decide, rfl⟩

/-- C3 amended: every event with a truthy `finished` removes the id from
the registry and schedules both refresh hooks unconditionally, whatever
the kind of the id; progress is not modified before removal (no task
record is written while processing a terminal event — the entry is
discarded with its last stored progress). -/
theorem finished_event_spec (reg : Registry) (e : ProgressEvent)
    (hf : truthyFlag e.finished = true) :
    lookupTask (processEvent reg e).1 e.version = none
    ∧ (processEvent reg e).2.refreshVersions = true
    ∧ (processEvent reg e).2.refreshPackages = true
    ∧ (processEvent reg e).2.writes = [] := by
  rw [processEvent_terminal reg (by simp [hf])]
  exact ⟨lookup_eraseTask_self reg e.version, by simp [hf], by simp [hf], rfl⟩

/-- C3 amended witness: a concrete finished event empties the singleton
registry and triggers both refresh hooks. -/
theorem finished_event_spec_witness :
    lookupTask (processEvent [("20.11.0", sampleTask)] finEvent).1 "20.11.0" = none
    ∧ (processEvent [("20.11.0", sampleTask)] finEvent).2.refreshVersions = true
    ∧ (processEvent [("20.11.0", sampleTask)] finEvent).2.refreshPackages = true
    ∧ (processEvent [("20.11.0", sampleTask)] finEvent).2.writes = [] :=
  finished_event_spec [("20.11.0", sampleTask)] finEvent rfl

/-- C4 counterexample: an event carrying both `error` and
`finished: true` does remove the id, but processing does not stop at the
failure: a success notification is emitted (and the refresh hooks are
scheduled) alongside the failure notification, contradicting the
no-further-processing clause. -/
theorem error_with_finished_emits_success :
    processEvent [("20.11.0", sampleTask)] errFinEvent =
      ([], { notes := [Note.successVersion "20.11.0", Note.failure "boom"],
             refreshVersions := true, refreshPackages := true, writes := [] }) := by
  rfl

/-- C4 amended: an event whose `error` field carries a nonempty string
removes the id from the registry, emits exactly one failure notification
for it, and performs no progress or status update; but when the event
also carries a truthy `finished`, a success notification and the two
refresh hooks are additionally triggered rather than being suppressed.
(An event carrying an empty-string `error` is falsy in the source and is
treated as a plain in-progress update.) -/
theorem error_event_spec (reg : Registry) (e : ProgressEvent) (msg : String)
    (he : e.error = some msg) (hne : msg ≠ "") :
    lookupTask (processEvent reg e).1 e.version = none
    ∧ (processEvent reg e).2.writes = []
    ∧ (processEvent reg e).2.notes =
        (if truthyFlag e.finished then
          if hasAtSign e.version then [Note.successPackage e.version]
          else [Note.successVersion e.version]
        else [])
        ++ [Note.failure msg]
    ∧ (processEvent reg e).2.refreshVersions = truthyFlag e.finished
    ∧ (processEvent reg e).2.refreshPackages = truthyFlag e.finished := by
  have herr : truthyStr e.error = true := by simp [truthyStr, he, hne]
  rw [processEvent_terminal reg (by simp [herr])]
  refine ⟨lookup_eraseTask_self reg e.version, rfl, ?_, rfl, rfl⟩
  simp [herr, he, truthyStr, hne]

/-- C4 amended witness: a concrete error-only event removes the task and
emits exactly the failure notification. -/
theorem error_event_spec_witness :
    lookupTask (processEvent [("20.11.0", sampleTask)] errEvent).1 "20.11.0" = none
    ∧ (processEvent [("20.11.0", sampleTask)] errEvent).2.writes = []
    ∧ (processEvent [("20.11.0", sampleTask)] errEvent).2.notes = [Note.failure "boom"]
    ∧ (processEvent [("20.11.0", sampleTask)] errEvent).2.refreshVersions = false
    ∧ (processEvent [("20.11.0", sampleTask)] errEvent).2.refreshPackages = false := by
  have h := error_event_spec [("20.11.0", sampleTask)] errEvent "boom" rfl (by decide)
  simpa [errEvent, truthyFlag] using h

/-- C5 counterexample: the listener stores event progress verbatim, so a
reachable registry (one in-progress event on the empty registry) holds
an entry whose progress is 150, outside [0, 100]. -/
theorem out_of_range_progress_reachable :
    Reachable (processEvent [] bigEvent).1
    ∧ lookupTask (processEvent [] bigEvent).1 "20.11.0" =
        some { progress := some 150, status := some "downloading", isPaused := false }
    ∧ ¬ ((150 : Int) ≤ 100) :=
  ⟨ReachableP.step ReachableP.init (StepP.event bigEvent trivial), rfl, by decide⟩

/-- C5 amended: the coordinator performs no clamping; provided every
inbound event carries a progress within [0, 100], every entry of every
reachable registry whose progress is defined has it within [0, 100]
(entries created by pause/resume on an absent id carry no progress
value at all). -/
theorem reachable_progress_bounds (r : Registry)
    (h : ReachableP ProgressEvent.inRange r) (id : String) (t : Task)
    (hl : lookupTask r id = some t) (n : Int) (hp : t.progress = some n) :
    0 ≤ n ∧ n ≤ 100 :=
  reachable_progressInRange h (id, t) (mem_of_lookupTask hl) n hp

/-- C5 amended witness: an in-range event produces an entry whose
progress is within bounds. -/
theorem reachable_progress_bounds_witness :
    lookupTask (processEvent [] sampleEvent).1 "20.11.0" =
      some { progress := some 10, status := some "downloading", isPaused := false }
    ∧ (0 ≤ (10 : Int) ∧ (10 : Int) ≤ 100) :=
  ⟨rfl,
    reachable_progress_bounds (processEvent [] sampleEvent).1
      (ReachableP.step ReachableP.init (StepP.event sampleEvent (by constructor <;> decide)))
      "20.11.0" { progress := some 10, status := some "downloading", isPaused := false }
      rfl 10 rfl⟩

/-- C6: issuing a start command mutates no registry entry —
`installVersion` leaves `activeDownloads` untouched in every branch, and
`handleInstall` performs no provider-state write at all — and every
reachable registry has pairwise distinct task ids, so starting twice
before a terminal event cannot produce two entries for one id. -/
theorem start_commands_registry_invariant :
    (∀ (s : AppState) (version : String) (o : InstallOracle),
        ((installVersion s version o).1).activeDownloads = s.activeDownloads)
    ∧ (∀ (s : AppState) (packageName : String) (version : Option String)
          (gw : Except String OpResult),
        (handleInstall s packageName version gw).1 = s)
    ∧ ∀ r : Registry, Reachable r → (registryKeys r).Nodup := by
  refine ⟨fun s v o => activeDownloads_installVersion s v o, fun s p v gw => ?_,
    fun r h => reachable_keys_nodup h⟩
  cases gw with
  | ok r => rfl
  | error msg => rfl

/-- C6 witness: a concrete install command leaves the initial registry
untouched, and the empty registry has no duplicate ids. -/
theorem start_commands_registry_invariant_witness :
    ((installVersion initialState "20.11.0" sampleInstallOracle).1).activeDownloads =
      initialState.activeDownloads
    ∧ (handleInstall initialState "lodash" (some "4.17.21")
        (Except.ok { success := true, message := "ok" })).1 = initialState
    ∧ (registryKeys ([] : Registry)).Nodup :=
  ⟨start_commands_registry_invariant.1 initialState "20.11.0" sampleInstallOracle,
    start_commands_registry_invariant.2.1 initialState "lodash" (some "4.17.21")
      (Except.ok { success := true, message := "ok" }),
    start_commands_registry_invariant.2.2 [] ReachableP.init⟩

/-- C7: a resolved cancel removes the id (idempotently — on an absent id
the registry is returned unchanged — and without surfacing an error);
a rejected cancel leaves the registry in its prior state and surfaces
the rejection message as a user-visible error. -/
theorem cancelDownload_contract (reg : Registry) (id : String) (msg : String) :
    (cancelDownload reg id (Except.ok ())).1 = eraseTask reg id
    ∧ lookupTask (cancelDownload reg id (Except.ok ())).1 id = none
    ∧ (cancelDownload reg id (Except.ok ())).2 = none
    ∧ (lookupTask reg id = none → (cancelDownload reg id (Except.ok ())).1 = reg)
    ∧ (cancelDownload reg id (Except.error msg)).1 = reg
    ∧ (cancelDownload reg id (Except.error msg)).2 = some msg := by
  refine ⟨rfl, lookup_eraseTask_self reg id, rfl, fun h => ?_, rfl, rfl⟩
  exact eraseTask_of_lookup_none reg id h

/-- C7 witness: concrete cancel of an absent id is a silent no-op, and a
rejected cancel preserves the registry and surfaces the message. -/
theorem cancelDownload_contract_witness :
    lookupTask (cancelDownload [("20.11.0", sampleTask)] "18.0.0" (Except.ok ())).1
        "18.0.0" = none
    ∧ (cancelDownload [("20.11.0", sampleTask)] "18.0.0" (Except.ok ())).1 =
        [("20.11.0", sampleTask)]
    ∧ (cancelDownload [("20.11.0", sampleTask)] "18.0.0" (Except.error "net")).1 =
        [("20.11.0", sampleTask)]
    ∧ (cancelDownload [("20.11.0", sampleTask)] "18.0.0" (Except.error "net")).2 =
        some "net" := by
  have h := cancelDownload_contract [("20.11.0", sampleTask)] "18.0.0" "net"
  exact ⟨h.2.1, h.2.2.2.1 rfl, h.2.2.2.2.1, h.2.2.2.2.2⟩

/-- C8 counterexample: the success toast for the composite id
`lodash@4.17.21` carries the composite id itself as the interpolated
name, which differs from the bare package name `lodash`. -/
theorem package_success_names_composite :
    (processEvent [("lodash@4.17.21", sampleTask)] pkgFinEvent).2.notes =
      [Note.successPackage "lodash@4.17.21"]
    ∧ "lodash@4.17.21" ≠ ("lodash" : String) := by
  refine ⟨rfl, by decide⟩

/-- C8 amended: on a finished event for a composite id the success
notification names the full composite id — the listener passes the raw
event id as the name parameter, performing no parsing of the bare
package name. -/
theorem package_success_note_names_id (reg : Registry) (e : ProgressEvent)
    (hf : truthyFlag e.finished = true) (hat : hasAtSign e.version = true) :
    (processEvent reg e).2.notes =
      Note.successPackage e.version ::
        (if truthyStr e.error then [Note.failure (e.error.getD "")] else []) := by
  rw [processEvent_terminal reg (by simp [hf])]
  simp [hf, hat]

/-- C8 amended witness: the concrete composite-id finished event emits a
success note naming the composite id. -/
theorem package_success_note_names_id_witness :
    (processEvent [] pkgFinEvent).2.notes = [Note.successPackage "lodash@4.17.21"] := by
  have h := package_success_note_names_id [] pkgFinEvent rfl (by decide)
  simpa [pkgFinEvent, truthyStr] using h

/-- C9: one event only ever touches the entry of its own id — for every
other id the registry entry after processing is exactly the entry
before, for terminal and in-progress events alike. -/
theorem event_frame_other_ids (reg : Registry) (e : ProgressEvent)
    (id : String) (hne : id ≠ e.version) :
    lookupTask (processEvent reg e).1 id = lookupTask reg id := by
  cases hterm : (truthyFlag e.finished || truthyStr e.error) with
  | true =>
    rw [processEvent_fst_terminal reg hterm]
    exact lookup_eraseTask_ne reg hne
  | false =>
    rw [processEvent_fst_inprogress reg hterm]
    exact lookup_setTask_ne reg _ hne

/-- C9 witness: a concrete event for one id leaves the entry of a
different id unchanged. -/
theorem event_frame_other_ids_witness :
    lookupTask (processEvent pausedReg errFinEvent).1 "18.0.0" =
      lookupTask pausedReg "18.0.0" :=
  event_frame_other_ids pausedReg errFinEvent "18.0.0" (by decide)

/-- C10: a resolved pause (resume) for an id absent from the registry
creates a fresh entry holding only the pause flag: progress and status
are left undefined, so the well-formed Task shape is not guaranteed. -/
theorem pause_resume_create_partial_entry (reg : Registry) (id : String)
    (habs : lookupTask reg id = none) :
    lookupTask (pauseDownload reg id (Except.ok ())).1 id =
      some { progress := none, status := none, isPaused := true }
    ∧ lookupTask (resumeDownload reg id (Except.ok ())).1 id =
      some { progress := none, status := none, isPaused := false } := by
  constructor
  · show lookupTask (setTask reg id (spreadWithPause (lookupTask reg id) true)) id = _
    rw [habs, lookup_setTask_self]
    rfl
  · show lookupTask (setTask reg id (spreadWithPause (lookupTask reg id) false)) id = _
    rw [habs, lookup_setTask_self]
    rfl

/-- C10 witness: pausing a non-existent download on the empty registry
creates the partial entry. -/
theorem pause_resume_create_partial_entry_witness :
    lookupTask (pauseDownload [] "2.0.0" (Except.ok ())).1 "2.0.0" =
      some { progress := none, status := none, isPaused := true }
    ∧ lookupTask (resumeDownload [] "2.0.0" (Except.ok ())).1 "2.0.0" =
      some { progress := none, status := none, isPaused := false } :=
  pause_resume_create_partial_entry [] "2.0.0" rfl

end NvmGui
